import Mathlib

/-!
Shallow embedding of the `almagest` crate's core: the validated `Eccentricity`
scalar (`src/almagest/src/utils.rs`), the Keplerian `Ellipse` geometry
(`src/almagest/src/kepler.rs`), and the tether physics formulas
(`src/almagest/src/tethers.rs`).

Rust `f64` values are modelled as exact real numbers extended, where the code
can produce IEEE special values, with `+inf`, `-inf` and `NaN` (the `Fl` type
below); rounding is not modelled, so the spec's "within relative tolerance"
claims are settled by exact real arithmetic. The sign of zero is not modelled:
the one division-by-zero reachable in the code (`semi_major_axis` at
eccentricity 1) divides by IEEE `+0.0`, which the model maps to the unsigned
real zero. Rust `Result<T, &str>` is modelled as `Except String T`, and a
reachable `panic!`/`unwrap` abort is modelled by `Option`, `none` standing for
the abort.
-/

namespace Almagest

/-- Model of an `f64` result: a finite exact real, an infinity, or NaN. -/
inductive Fl : Type
  | fin : ℝ → Fl
  | pinf : Fl
  | ninf : Fl
  | nan : Fl

/-- IEEE division of two finite doubles, in the exact-real model: a nonzero
divisor gives the real quotient; a zero divisor gives a signed infinity (or
NaN for `0/0`). The dividend's sign picks the infinity, matching IEEE division
by positive zero, the only zero divisor reachable in the embedded code. -/
noncomputable def fdiv (x y : ℝ) : Fl :=
  if y ≠ 0 then .fin (x / y)
  else if 0 < x then .pinf
  else if x < 0 then .ninf
  else .nan

/-- IEEE multiplication on the `Fl` model: finite times finite is the real
product; an infinity times a finite value follows the sign of the finite
factor (NaN when it is zero); NaN propagates. -/
noncomputable def Fl.mul : Fl → Fl → Fl
  | .fin x, .fin y => .fin (x * y)
  | .fin x, .pinf => if 0 < x then .pinf else if x < 0 then .ninf else .nan
  | .fin x, .ninf => if 0 < x then .ninf else if x < 0 then .pinf else .nan
  | .pinf, .fin y => if 0 < y then .pinf else if y < 0 then .ninf else .nan
  | .ninf, .fin y => if 0 < y then .ninf else if y < 0 then .pinf else .nan
  | .pinf, .pinf => .pinf
  | .pinf, .ninf => .ninf
  | .ninf, .pinf => .ninf
  | .ninf, .ninf => .pinf
  | _, _ => .nan

/-- `libm::sqrt` on a finite double: NaN for negative input, else the exact
real square root. -/
noncomputable def sqrtF (x : ℝ) : Fl :=
  if x < 0 then .nan else .fin (Real.sqrt x)

/-- `Eccentricity` from `utils.rs`: a newtype over `Real = f64` whose
constructor validates non-negativity. -/
structure Eccentricity where
  val : ℝ

/-- `Eccentricity::new` from `utils.rs`: rejects negative values with the
message the source carries, accepts everything else (including values `≥ 1`). -/
noncomputable def Eccentricity.new (value : ℝ) : Except String Eccentricity :=
  if value < 0 then .error "Eccentricity cannot be negative"
  else .ok ⟨value⟩

/-- `Point` from `kepler.rs`: an (x, y) pair of `Meters`. -/
structure Point where
  x : ℝ
  y : ℝ

/-- `Ellipse` from `kepler.rs`: eccentricity, primary focus, periapsis. -/
structure Ellipse where
  e : Eccentricity
  f : Point
  r_p : ℝ

/-- `Ellipse::new` from `kepler.rs`. -/
def Ellipse.new (e : Eccentricity) (f : Point) (r_p : ℝ) : Ellipse :=
  ⟨e, f, r_p⟩

/-- `Ellipse::from_periapsis_apoapsis` from `kepler.rs`: derives
`e = (r_a - r_p) / (r_a + r_p)` and calls `Eccentricity::new(e).unwrap()`.
The `unwrap` aborts the program when the derived eccentricity is negative;
that abort is modelled by `none`. -/
noncomputable def Ellipse.from_periapsis_apoapsis (r_p r_a : ℝ) (f : Point) :
    Option Ellipse :=
  match Eccentricity.new ((r_a - r_p) / (r_a + r_p)) with
  | .ok e => some ⟨e, f, r_p⟩
  | .error _ => none

/-- `Ellipse::eccentricity`. -/
def Ellipse.eccentricity (E : Ellipse) : Eccentricity := E.e

/-- `Ellipse::periapsis`: returns the stored field, always finite. -/
def Ellipse.periapsis (E : Ellipse) : ℝ := E.r_p

/-- `Ellipse::semi_major_axis`: `r_p / (1 - e)` by f64 division. -/
noncomputable def Ellipse.semi_major_axis (E : Ellipse) : Fl :=
  fdiv E.periapsis (1 - E.eccentricity.val)

/-- `Ellipse::semi_minor_axis`: `a * sqrt(1 - e^2)` by f64 arithmetic. -/
noncomputable def Ellipse.semi_minor_axis (E : Ellipse) : Fl :=
  Fl.mul E.semi_major_axis
    (sqrtF (1 - E.eccentricity.val * E.eccentricity.val))

/-- `Ellipse::apoapsis`: `a * (1 + e)` by f64 multiplication. -/
noncomputable def Ellipse.apoapsis (E : Ellipse) : Fl :=
  Fl.mul E.semi_major_axis (.fin (1 + E.eccentricity.val))

/-- `Ellipse::focal_distance`: `e * a` by f64 multiplication. -/
noncomputable def Ellipse.focal_distance (E : Ellipse) : Fl :=
  Fl.mul (.fin E.eccentricity.val) E.semi_major_axis

/-- `calc_2a` from `kepler.rs`: `r_f + r_f_p`. -/
def calc_2a (r_f r_f_p : ℝ) : ℝ := r_f + r_f_p

/-- `calc_2c` from `kepler.rs`: `|r_f - r_f_p|` by an explicit comparison. -/
noncomputable def calc_2c (r_f r_f_p : ℝ) : ℝ :=
  if r_f_p < r_f then r_f - r_f_p else r_f_p - r_f

/-- `calc_ecc` from `kepler.rs`: `e = (2c/2) / (2a/2)`, built through
`Eccentricity::new(..).unwrap()`; the abort on a negative ratio is modelled
by `none`. -/
noncomputable def calc_ecc (r_f r_f_p : ℝ) : Option Eccentricity :=
  match Eccentricity.new ((calc_2c r_f r_f_p / 2) / (calc_2a r_f r_f_p / 2)) with
  | .ok e => some e
  | .error _ => none

/-- `Material` from `materials.rs`: the fields the physics reads are the
tensile strength (Pa) and density (kg/m³). -/
structure Material where
  name : String
  tensile_strength : ℝ
  density : ℝ
  youngs_modulus : Option ℝ
  description : String

/-- `characteristic_velocity` from `tethers.rs`: validates the four bounds in
source order, then returns `sqrt((σ * 2) / ρ)`. -/
noncomputable def characteristic_velocity (tensile_strength density : ℝ) :
    Except String ℝ :=
  if tensile_strength ≤ 0 then .error "Tensile strength must be positive"
  else if density ≤ 0 then .error "Density must be positive"
  else if 200e9 < tensile_strength then
    .error "Tensile strength exceeds known material limits"
  else if 50000 < density then
    .error "Density exceeds reasonable material limits"
  else .ok (Real.sqrt (tensile_strength * 2 / density))

/-- `characteristic_velocity_for_material` from `tethers.rs`. -/
noncomputable def characteristic_velocity_for_material (m : Material) :
    Except String ℝ :=
  characteristic_velocity m.tensile_strength m.density

/-- `momentum_exchange_orbital_velocity` from `tethers.rs`: validates
positivity, then `sqrt(μ / r)`. -/
noncomputable def momentum_exchange_orbital_velocity
    (radius gravitational_parameter : ℝ) : Except String ℝ :=
  if radius ≤ 0 then .error "Orbital radius must be positive"
  else if gravitational_parameter ≤ 0 then
    .error "Gravitational parameter must be positive"
  else .ok (Real.sqrt (gravitational_parameter / radius))

/-- `momentum_exchange_efficiency` from `tethers.rs`: propagates the first
failing sub-call, else `min(v_char / v_orb, 1)`. -/
noncomputable def momentum_exchange_efficiency (m : Material)
    (radius gravitational_parameter : ℝ) : Except String ℝ :=
  match characteristic_velocity_for_material m with
  | .error s => .error s
  | .ok cv =>
    match momentum_exchange_orbital_velocity radius gravitational_parameter with
    | .error s => .error s
    | .ok ov => .ok (min (cv / ov) 1)

/-- `momentum_exchange_spin_rate` from `tethers.rs`: validates positivity,
computes the diameter-ratio Moravec multiplier, capped at 10. -/
noncomputable def momentum_exchange_spin_rate
    (tether_length central_body_radius : ℝ) : Except String ℝ :=
  if tether_length ≤ 0 then .error "Tether length must be positive"
  else if central_body_radius ≤ 0 then
    .error "Central body radius must be positive"
  else
    let dr := tether_length * 2 / (central_body_radius * 2)
    let spin_multiplier := 1 + dr / (1 / 3) * 5
    .ok (min spin_multiplier 10)

/-- C1: `characteristic_velocity` fails exactly when `σ ≤ 0`, `ρ ≤ 0`,
`σ > 200e9`, or `ρ > 50000`, and returns a success value on every other
input pair. -/
theorem characteristic_velocity_failure_boundary (σ ρ : ℝ) :
    ((∃ s, characteristic_velocity σ ρ = .error s) ↔
      (σ ≤ 0 ∨ ρ ≤ 0 ∨ σ > 200e9 ∨ ρ > 50000)) ∧
    ((∃ v, characteristic_velocity σ ρ = .ok v) ↔
      ¬(σ ≤ 0 ∨ ρ ≤ 0 ∨ σ > 200e9 ∨ ρ > 50000)) := by
  unfold characteristic_velocity
  split_ifs with h1 h2 h3 h4 <;> simp_all

/-- C2: within the validation bounds, `characteristic_velocity` succeeds with
the value `sqrt(2·σ/ρ)` (exactly, in the real model, hence within relative
tolerance 1e-12). -/
theorem characteristic_velocity_formula (σ ρ : ℝ) (hσ : 0 < σ) (hρ : 0 < ρ)
    (hσb : σ ≤ 200e9) (hρb : ρ ≤ 50000) :
    ∃ v, characteristic_velocity σ ρ = Except.ok v ∧
      |v - Real.sqrt (2 * σ / ρ)| ≤ 1e-12 * |Real.sqrt (2 * σ / ρ)| := by
  refine ⟨Real.sqrt (σ * 2 / ρ), ?_, ?_⟩
  · unfold characteristic_velocity
    rw [if_neg (not_le.mpr hσ), if_neg (not_le.mpr hρ),
      if_neg (not_lt.mpr hσb), if_neg (not_lt.mpr hρb)]
  · rw [show σ * 2 / ρ = 2 * σ / ρ by ring, sub_self, abs_zero]
    positivity

theorem characteristic_velocity_formula_witness :
    (0:ℝ) < 2 ∧ (0:ℝ) < 1 ∧ (2:ℝ) ≤ 200e9 ∧ (1:ℝ) ≤ 50000 ∧
      ∃ v, characteristic_velocity 2 1 = Except.ok v ∧
        |v - Real.sqrt (2 * 2 / 1)| ≤ 1e-12 * |Real.sqrt (2 * 2 / 1)| :=
  ⟨by norm_num, by norm_num, by norm_num, by norm_num,
    characteristic_velocity_formula 2 1 (by norm_num) (by norm_num)
      (by norm_num) (by norm_num)⟩

/-- C8 counterexample: the failure message of `Eccentricity::new` on a
negative input is "Eccentricity cannot be negative", not the message
"value must be non-negative" named by the claim. -/
theorem eccentricity_new_message_counterexample :
    Eccentricity.new (-1) ≠ Except.error "value must be non-negative" := by
  unfold Eccentricity.new
  rw [if_pos (by norm_num : (-1:ℝ) < 0)]
  simp only [ne_eq, Except.error.injEq]
  decide

/-- C8 amended: `Eccentricity::new` succeeds exactly on non-negative values;
on a negative value it fails with the message "Eccentricity cannot be
negative". -/
theorem eccentricity_new_spec (v : ℝ) :
    ((∃ e, Eccentricity.new v = Except.ok e) ↔ 0 ≤ v) ∧
    (v < 0 →
      Eccentricity.new v = Except.error "Eccentricity cannot be negative") := by
  unfold Eccentricity.new
  constructor
  · split_ifs with h
    · simp only [reduceCtorEq, exists_false, false_iff, not_le]
      exact h
    · simp only [Except.ok.injEq, exists_eq', true_iff]
      linarith
  · intro h
    rw [if_pos h]

theorem eccentricity_new_spec_witness :
    Eccentricity.new (-1) = Except.error "Eccentricity cannot be negative" :=
  (eccentricity_new_spec (-1)).2 (by norm_num)

/-- C6: for positive lengths, the spin rate is `min(10, 1 + (2L/2R)/(1/3)·5)`,
and at the Moravec reference length `L = R/3` it is 6 (so within 0.1 of 6). -/
theorem momentum_exchange_spin_rate_spec (L R : ℝ) (hL : 0 < L) (hR : 0 < R) :
    momentum_exchange_spin_rate L R =
      Except.ok (min 10 (1 + L * 2 / (R * 2) / (1 / 3) * 5)) ∧
    ∃ v, momentum_exchange_spin_rate (R / 3) R = Except.ok v ∧ |v - 6| ≤ 0.1 := by
  constructor
  · unfold momentum_exchange_spin_rate
    rw [if_neg (not_le.mpr hL), if_neg (not_le.mpr hR)]
    rw [min_comm]
  · refine ⟨6, ?_, by norm_num⟩
    unfold momentum_exchange_spin_rate
    rw [if_neg (not_le.mpr (by positivity : (0:ℝ) < R / 3)), if_neg (not_le.mpr hR)]
    show Except.ok (min (1 + R / 3 * 2 / (R * 2) / (1 / 3) * 5) 10) = Except.ok 6
    have hq : R / 3 * 2 / (R * 2) = 1 / 3 := by
      field_simp
      ring
    rw [hq]
    norm_num

theorem momentum_exchange_spin_rate_spec_witness :
    (0:ℝ) < 1 ∧ (0:ℝ) < 3 ∧
      (momentum_exchange_spin_rate 1 3 =
        Except.ok (min 10 (1 + 1 * 2 / (3 * 2) / (1 / 3) * 5)) ∧
      ∃ v, momentum_exchange_spin_rate (3 / 3) 3 = Except.ok v ∧ |v - 6| ≤ 0.1) :=
  ⟨by norm_num, by norm_num,
    momentum_exchange_spin_rate_spec 1 3 (by norm_num) (by norm_num)⟩

/-- For positive focal radii, `calc_ecc` takes the success branch and the
underlying value `c/a` lies in `[0, 1]` (shared helper). -/
lemma calc_ecc_pos_eq (r_f r_f_p : ℝ) (h1 : 0 < r_f) (h2 : 0 < r_f_p) :
    calc_ecc r_f r_f_p =
      some ⟨calc_2c r_f r_f_p / 2 / (calc_2a r_f r_f_p / 2)⟩ ∧
    0 ≤ calc_2c r_f r_f_p / 2 / (calc_2a r_f r_f_p / 2) ∧
    calc_2c r_f r_f_p / 2 / (calc_2a r_f r_f_p / 2) ≤ 1 := by
  have ha : 0 < calc_2a r_f r_f_p := by unfold calc_2a; linarith
  have hc0 : 0 ≤ calc_2c r_f r_f_p := by
    unfold calc_2c; split_ifs <;> linarith
  have hc1 : calc_2c r_f r_f_p ≤ calc_2a r_f r_f_p := by
    unfold calc_2c calc_2a; split_ifs <;> linarith
  have hq0 : 0 ≤ calc_2c r_f r_f_p / 2 / (calc_2a r_f r_f_p / 2) := by positivity
  have hq1 : calc_2c r_f r_f_p / 2 / (calc_2a r_f r_f_p / 2) ≤ 1 := by
    rw [div_le_one (by positivity)]
    linarith
  refine ⟨?_, hq0, hq1⟩
  unfold calc_ecc Eccentricity.new
  rw [if_neg (not_lt.mpr hq0)]

/-- For `0 < r_p ≤ r_a` the derived eccentricity is non-negative, so
`from_periapsis_apoapsis` takes the success branch (shared helper). -/
lemma from_periapsis_apoapsis_ok (r_p r_a : ℝ) (f : Point)
    (h0 : 0 < r_p) (h1 : r_p ≤ r_a) :
    Ellipse.from_periapsis_apoapsis r_p r_a f =
      some ⟨⟨(r_a - r_p) / (r_a + r_p)⟩, f, r_p⟩ := by
  have hsum : 0 < r_a + r_p := by linarith
  have he : 0 ≤ (r_a - r_p) / (r_a + r_p) :=
    div_nonneg (by linarith) hsum.le
  unfold Ellipse.from_periapsis_apoapsis Eccentricity.new
  rw [if_neg (not_lt.mpr he)]

/-- For eccentricity below 1 the divisor `1 - e` is nonzero, so
`semi_major_axis` is the finite real `r_p / (1 - e)` (shared helper). -/
lemma semi_major_axis_fin (E : Ellipse) (h : E.eccentricity.val < 1) :
    E.semi_major_axis = Fl.fin (E.periapsis / (1 - E.eccentricity.val)) := by
  have hne : 1 - E.eccentricity.val ≠ 0 := by
    have : 0 < 1 - E.eccentricity.val := by linarith
    exact ne_of_gt this
  unfold Ellipse.semi_major_axis fdiv
  rw [if_pos hne]

/-- C3 counterexample: with apoapsis 1 smaller than periapsis 3, the derived
eccentricity is negative and the `unwrap` inside
`Ellipse::from_periapsis_apoapsis` aborts the program (modelled by `none`). -/
theorem from_periapsis_apoapsis_abort_counterexample :
    Ellipse.from_periapsis_apoapsis 3 1 ⟨0, 0⟩ = none := by
  unfold Ellipse.from_periapsis_apoapsis Eccentricity.new
  rw [if_pos (by norm_num : ((1:ℝ) - 3) / (1 + 3) < 0)]

/-- C3 amended: functions returning a `Result` never abort, but
`Ellipse::from_periapsis_apoapsis` and `calc_ecc` unwrap the internal
`Eccentricity` construction and abort when the derived eccentricity is
negative; for `0 < r_p ≤ r_a` and for positive focal radii no abort occurs. -/
theorem core_no_abort_amended :
    (∀ (r_p r_a : ℝ) (f : Point), 0 < r_p → r_p ≤ r_a →
      ∃ E, Ellipse.from_periapsis_apoapsis r_p r_a f = some E) ∧
    (∀ r_f r_f_p : ℝ, 0 < r_f → 0 < r_f_p →
      ∃ ecc, calc_ecc r_f r_f_p = some ecc) := by
  constructor
  · intro r_p r_a f h0 h1
    exact ⟨_, from_periapsis_apoapsis_ok r_p r_a f h0 h1⟩
  · intro r_f r_f_p h1 h2
    exact ⟨_, (calc_ecc_pos_eq r_f r_f_p h1 h2).1⟩

theorem core_no_abort_amended_witness :
    (∃ E, Ellipse.from_periapsis_apoapsis 1 3 ⟨0, 0⟩ = some E) ∧
    (∃ ecc, calc_ecc 1 2 = some ecc) :=
  ⟨core_no_abort_amended.1 1 3 ⟨0, 0⟩ (by norm_num) (by norm_num),
    core_no_abort_amended.2 1 2 (by norm_num) (by norm_num)⟩

/-- C10: for positive focal radii the `Eccentricity` construction inside
`calc_ecc` never reaches its error branch (no abort), and the returned
eccentricity lies in `[0, 1]`. -/
theorem calc_ecc_never_errors_and_bounded (r_f r_f_p : ℝ)
    (h1 : 0 < r_f) (h2 : 0 < r_f_p) :
    ∃ ecc, calc_ecc r_f r_f_p = some ecc ∧ 0 ≤ ecc.val ∧ ecc.val ≤ 1 := by
  obtain ⟨heq, h0, hle⟩ := calc_ecc_pos_eq r_f r_f_p h1 h2
  exact ⟨_, heq, h0, hle⟩

theorem calc_ecc_never_errors_and_bounded_witness :
    ∃ ecc, calc_ecc 1 2 = some ecc ∧ 0 ≤ ecc.val ∧ ecc.val ≤ 1 :=
  calc_ecc_never_errors_and_bounded 1 2 (by norm_num) (by norm_num)

/-- C4: for `0 < r_p ≤ r_a`, the ellipse built by `from_periapsis_apoapsis`
returns `periapsis() = r_p` and `apoapsis() = r_a` (exactly, in the real
model, hence within relative tolerance 1e-6). -/
theorem from_periapsis_apoapsis_round_trip (r_p r_a : ℝ) (f : Point)
    (h0 : 0 < r_p) (h1 : r_p ≤ r_a) :
    ∃ E, Ellipse.from_periapsis_apoapsis r_p r_a f = some E ∧
      |E.periapsis - r_p| ≤ 1e-6 * |r_p| ∧
      ∃ ra, E.apoapsis = Fl.fin ra ∧ |ra - r_a| ≤ 1e-6 * |r_a| := by
  have hsum : 0 < r_a + r_p := by linarith
  refine ⟨⟨⟨(r_a - r_p) / (r_a + r_p)⟩, f, r_p⟩,
    from_periapsis_apoapsis_ok r_p r_a f h0 h1, ?_, ?_⟩
  · show |r_p - r_p| ≤ 1e-6 * |r_p|
    rw [sub_self, abs_zero]
    positivity
  · have he1 : (r_a - r_p) / (r_a + r_p) < 1 := by
      rw [div_lt_one hsum]
      linarith
    have hsma := semi_major_axis_fin ⟨⟨(r_a - r_p) / (r_a + r_p)⟩, f, r_p⟩ he1
    refine ⟨r_p / (1 - (r_a - r_p) / (r_a + r_p)) *
      (1 + (r_a - r_p) / (r_a + r_p)), ?_, ?_⟩
    · unfold Ellipse.apoapsis
      rw [hsma]
      rfl
    · have h1e : 1 - (r_a - r_p) / (r_a + r_p) = 2 * r_p / (r_a + r_p) := by
        field_simp
        ring
      have h2e : 1 + (r_a - r_p) / (r_a + r_p) = 2 * r_a / (r_a + r_p) := by
        field_simp
        ring
      have hval : r_p / (1 - (r_a - r_p) / (r_a + r_p)) *
          (1 + (r_a - r_p) / (r_a + r_p)) = r_a := by
        rw [h1e, h2e]
        field_simp
        ring
      rw [hval, sub_self, abs_zero]
      positivity

theorem from_periapsis_apoapsis_round_trip_witness :
    ∃ E, Ellipse.from_periapsis_apoapsis 1 3 ⟨0, 0⟩ = some E ∧
      |E.periapsis - 1| ≤ 1e-6 * |(1:ℝ)| ∧
      ∃ ra, E.apoapsis = Fl.fin ra ∧ |ra - 3| ≤ 1e-6 * |(3:ℝ)| :=
  from_periapsis_apoapsis_round_trip 1 3 ⟨0, 0⟩ (by norm_num) (by norm_num)

/-- C5: for any ellipse with `0 ≤ e < 1` and positive periapsis, the derived
quantities are finite reals satisfying `c² + b² = a²` (exactly, in the real
model, hence within relative tolerance 1e-6). -/
theorem ellipse_pythagorean_invariant (E : Ellipse)
    (he0 : 0 ≤ E.eccentricity.val) (he1 : E.eccentricity.val < 1)
    (hrp : 0 < E.periapsis) :
    ∃ a b c : ℝ, E.semi_major_axis = Fl.fin a ∧
      E.semi_minor_axis = Fl.fin b ∧ E.focal_distance = Fl.fin c ∧
      |c ^ 2 + b ^ 2 - a ^ 2| ≤ 1e-6 * |a ^ 2| := by
  have hsma := semi_major_axis_fin E he1
  have hsq : 0 ≤ 1 - E.eccentricity.val * E.eccentricity.val := by nlinarith
  refine ⟨E.periapsis / (1 - E.eccentricity.val),
    E.periapsis / (1 - E.eccentricity.val) *
      Real.sqrt (1 - E.eccentricity.val * E.eccentricity.val),
    E.eccentricity.val * (E.periapsis / (1 - E.eccentricity.val)),
    hsma, ?_, ?_, ?_⟩
  · unfold Ellipse.semi_minor_axis sqrtF
    rw [hsma, if_neg (not_lt.mpr hsq)]
    rfl
  · unfold Ellipse.focal_distance
    rw [hsma]
    rfl
  · have hss : Real.sqrt (1 - E.eccentricity.val * E.eccentricity.val) ^ 2 =
        1 - E.eccentricity.val * E.eccentricity.val := Real.sq_sqrt hsq
    have hzero : (E.eccentricity.val *
        (E.periapsis / (1 - E.eccentricity.val))) ^ 2 +
        (E.periapsis / (1 - E.eccentricity.val) *
          Real.sqrt (1 - E.eccentricity.val * E.eccentricity.val)) ^ 2 -
        (E.periapsis / (1 - E.eccentricity.val)) ^ 2 = 0 := by
      rw [mul_pow, mul_pow, hss]
      ring
    rw [hzero, abs_zero]
    positivity

theorem ellipse_pythagorean_invariant_witness :
    ∃ a b c : ℝ,
      (Ellipse.mk ⟨1 / 2⟩ ⟨0, 0⟩ 1).semi_major_axis = Fl.fin a ∧
      (Ellipse.mk ⟨1 / 2⟩ ⟨0, 0⟩ 1).semi_minor_axis = Fl.fin b ∧
      (Ellipse.mk ⟨1 / 2⟩ ⟨0, 0⟩ 1).focal_distance = Fl.fin c ∧
      |c ^ 2 + b ^ 2 - a ^ 2| ≤ 1e-6 * |a ^ 2| :=
  ellipse_pythagorean_invariant (Ellipse.mk ⟨1 / 2⟩ ⟨0, 0⟩ 1)
    (by norm_num [Ellipse.eccentricity]) (by norm_num [Ellipse.eccentricity])
    (by norm_num [Ellipse.periapsis])

/-- C9: at eccentricity exactly 1 with positive periapsis, `semi_major_axis`
and `apoapsis` evaluate to positive infinity as ordinary numeric outcomes;
no failure value and no abort is produced. -/
theorem parabolic_infinite_axes (E : Ellipse) (he : E.eccentricity.val = 1)
    (hrp : 0 < E.periapsis) :
    E.semi_major_axis = Fl.pinf ∧ E.apoapsis = Fl.pinf := by
  have hsma : E.semi_major_axis = Fl.pinf := by
    unfold Ellipse.semi_major_axis fdiv
    rw [he]
    rw [if_neg (by norm_num), if_pos hrp]
  refine ⟨hsma, ?_⟩
  unfold Ellipse.apoapsis
  rw [hsma, he]
  show Fl.mul Fl.pinf (Fl.fin (1 + 1)) = Fl.pinf
  simp only [Fl.mul]
  norm_num

theorem parabolic_infinite_axes_witness :
    (Ellipse.mk ⟨1⟩ ⟨0, 0⟩ 1000).semi_major_axis = Fl.pinf ∧
    (Ellipse.mk ⟨1⟩ ⟨0, 0⟩ 1000).apoapsis = Fl.pinf :=
  parabolic_infinite_axes (Ellipse.mk ⟨1⟩ ⟨0, 0⟩ 1000) rfl
    (by norm_num [Ellipse.periapsis])

/-- C7: when the material properties pass the characteristic-velocity bounds
and the orbit parameters are positive, `momentum_exchange_efficiency`
succeeds with a value in `[0, 1]`. -/
theorem momentum_exchange_efficiency_in_unit_interval (m : Material)
    (r μ : ℝ) (hσ : 0 < m.tensile_strength) (hρ : 0 < m.density)
    (hσb : m.tensile_strength ≤ 200e9) (hρb : m.density ≤ 50000)
    (hr : 0 < r) (hμ : 0 < μ) :
    ∃ η, momentum_exchange_efficiency m r μ = Except.ok η ∧
      0 ≤ η ∧ η ≤ 1 := by
  have hcv : characteristic_velocity_for_material m =
      Except.ok (Real.sqrt (m.tensile_strength * 2 / m.density)) := by
    unfold characteristic_velocity_for_material characteristic_velocity
    rw [if_neg (not_le.mpr hσ), if_neg (not_le.mpr hρ),
      if_neg (not_lt.mpr hσb), if_neg (not_lt.mpr hρb)]
  have hov : momentum_exchange_orbital_velocity r μ =
      Except.ok (Real.sqrt (μ / r)) := by
    unfold momentum_exchange_orbital_velocity
    rw [if_neg (not_le.mpr hr), if_neg (not_le.mpr hμ)]
  refine ⟨min (Real.sqrt (m.tensile_strength * 2 / m.density) /
    Real.sqrt (μ / r)) 1, ?_, ?_, ?_⟩
  · unfold momentum_exchange_efficiency
    rw [hcv, hov]
  · exact le_min (div_nonneg (Real.sqrt_nonneg _) (Real.sqrt_nonneg _))
      zero_le_one
  · exact min_le_right _ _

theorem momentum_exchange_efficiency_in_unit_interval_witness :
    ∃ η, momentum_exchange_efficiency
        ⟨"PBO (Zylon)", 5.9e9, 1340, some 270e9, "Zylon fiber"⟩
        6.771e6 3.986004418e14 = Except.ok η ∧ 0 ≤ η ∧ η ≤ 1 :=
  momentum_exchange_efficiency_in_unit_interval
    ⟨"PBO (Zylon)", 5.9e9, 1340, some 270e9, "Zylon fiber"⟩
    6.771e6 3.986004418e14 (by norm_num) (by norm_num) (by norm_num)
    (by norm_num) (by norm_num) (by norm_num)

end Almagest
